import Mathlib

/-!
Shallow embedding of `src/gren.js` (durera/github-release-notes): the block
synthesis pipeline that turns tags, releases, commits and issues into release
note blocks, plus the release synchronizer and the changelog writer.

Conventions of the embedding:
* JS strings are `String`; a JS value that is only ever used for truthiness and
  may be `undefined`/`null`/`""` is modelled as `String` with `""` standing for
  the falsy values (they are indistinguishable in every use the code makes).
* JS numbers holding timestamps are `Int` (milliseconds since the epoch).
* A nullable release id is `Option Int` (`none` = JS `null`).
* A thrown JS value aborts a promise chain: fallible code returns `Except`.
* Mutation of option/issue objects is rendered as explicit pure data flow; the
  in-place `issue.labels.push({name: noLabel})` (done identically in
  `templateLabels`, `groupByLabel` and `groupBy`, and idempotent because it
  only fires on an empty list) is modelled by `effectiveLabels`.
-/

deriving instance DecidableEq for Except

/-- A GitHub label; `gren.js` only ever reads its `name`. -/
structure Label where
  name : String
  deriving Repr, DecidableEq

/-- A GitHub milestone; `gren.js` only ever reads its `title`. -/
structure Milestone where
  title : String
  deriving Repr, DecidableEq

/-- A GitHub issue, restricted to the fields `gren.js` reads.
`pull_request` models the truthiness of the `pull_request` field. -/
structure Issue where
  pull_request : Bool
  title : String
  number : Nat
  html_url : String
  labels : List Label
  milestone : Option Milestone
  closed_at : Int
  deriving Repr, DecidableEq

/-- A repository tag as returned by `listTags`; only the name is inspected by
the tag selection logic embedded here. -/
structure Tag where
  name : String
  deriving Repr, DecidableEq

/-- The per-entity template strings (`gren.options.template`).  `noLabel = ""`
models an unconfigured (falsy) `noLabel`. -/
structure TemplateSet where
  commit : String
  label : String
  issue : String
  group : String
  changelogTitle : String
  release : String
  releaseSeparator : String
  noLabel : String
  deriving Repr, DecidableEq

/-- The `groupBy` option: JS `false`, the string `"label"`, an object mapping
group names to label lists (an insertion-ordered association list), or any
other value (which `groupBy` rejects at run time). -/
inductive GroupByOpt where
  | flat
  | byLabel
  | mapping (m : List (String × List String))
  | invalid (s : String)
  deriving Repr, DecidableEq

/-- The option bag of `gren.js` after `convertStringToArray` normalisation,
restricted to the options the embedded code reads.  `prefixStr` models the
`prefix` option (`prefix` is a reserved word in Lean). -/
structure Options where
  tags : List String
  changelogFilename : String
  dataSource : String
  onlyMilestones : Bool
  milestoneMatch : String
  draft : Bool
  force : Bool
  prefixStr : String
  includeMessages : String
  prerelease : Bool
  generate : Bool
  override : Bool
  ignoreLabels : List String
  ignoreIssuesWith : List String
  template : TemplateSet
  groupBy : GroupByOpt
  deriving Repr, DecidableEq

/-- The `GithubReleaseNotes` instance, reduced to its option bag (the `repo`
and `issues` API clients are external collaborators). -/
structure Gren where
  options : Options
  deriving Repr, DecidableEq

/-- One endpoint of a release range, produced by `getTagDates`:
`{id, name, date}`.  The `body` field models the `body` property read by
`getIssueBlocks` on `range[0]` (absent on points built by `getTagDates`, so
`""` there). -/
structure DatedPoint where
  id : Option Int
  name : String
  date : Int
  body : String
  deriving Repr, DecidableEq

/-- A release range `[newer, older]` as built by `createReleaseRanges`
(`range[0]` is the newer point, `range[1]` the older). -/
abbrev Range := DatedPoint × DatedPoint

/-- A synthesized release block (`getCommitBlocks` / `getIssueBlocks`
output). -/
structure Block where
  id : Option Int
  release : String
  name : String
  published_at : Int
  body : String
  deriving Repr, DecidableEq

/-- A pre-existing release record as consumed by `templateReleases`. -/
structure ReleaseRecord where
  name : String
  published_at : Int
  body : String
  deriving Repr, DecidableEq

/-! ## Template renderer -/

/-- Scanner helper for the template renderer: splits a character list at the
first closing `\x7d\x7d`, returning the characters before it and the rest. -/
def splitClose : List Char → Option (List Char × List Char)
  | [] => none
  | '\x7d' :: '\x7d' :: rest => some ([], rest)
  | c :: rest =>
    match splitClose rest with
    | some (key, after) => some (c :: key, after)
    | none => none

/-- Single substitution pass of the template renderer over a character list.
The fuel argument only makes the recursion structural; `generate` supplies
enough fuel for the whole template (each step consumes at least one
character). -/
def genAux (context : List (String × String)) : Nat → List Char → List Char
  | _, [] => []
  | 0, l => l
  | fuel + 1, '\x7b' :: '\x7b' :: rest =>
    match splitClose rest with
    | some (key, after) =>
      match context.lookup (String.mk key) with
      | some v => v.data ++ genAux context fuel after
      | none => '\x7b' :: '\x7b' :: (key ++ '\x7d' :: '\x7d' :: genAux context fuel after)
    | none => '\x7b' :: '\x7b' :: genAux context fuel rest
  | fuel + 1, c :: rest => c :: genAux context fuel rest

/-- Modelled from the spec: `template.generate` lives in `src/template.js`,
which is not included under `src/`.  Spec 4.1: replace every literal
occurrence of `\x7b\x7bkey\x7d\x7d` by the value bound to `key`; placeholders
with no matching key are left verbatim; a single substitution pass, so
substituted values are never re-expanded. -/
def generate (context : List (String × String)) (tpl : String) : String :=
  String.mk (genAux context tpl.data.length tpl.data)

/-! ## Per-entity templating (`gren.js` lines 269-378) -/

/-- `templateCommits`: render one commit message through the commit
template. -/
def templateCommits (gren : Gren) (message : String) : String :=
  generate [("message", message)] gren.options.template.commit

/-- The labels of an issue after the in-place push of the `noLabel`
placeholder that `templateLabels`, `groupByLabel` and `groupBy` all perform
when the issue has no labels and `noLabel` is configured. -/
def effectiveLabels (gren : Gren) (issue : Issue) : List Label :=
  if issue.labels.isEmpty && !(gren.options.template.noLabel == "") then
    [{ name := gren.options.template.noLabel }]
  else issue.labels

/-- `templateLabels`: drop ignored labels, render each through the label
template, and concatenate (JS `join("")`). -/
def templateLabels (gren : Gren) (issue : Issue) : String :=
  String.join
    (((effectiveLabels gren issue).filter
        (fun label => !(gren.options.ignoreLabels.contains label.name))).map
      (fun label => generate [("label", label.name)] gren.options.template.label))

/-- `templateIssue`: render one issue through the issue template. -/
def templateIssue (gren : Gren) (issue : Issue) : String :=
  generate
    [("labels", templateLabels gren issue),
     ("name", issue.title),
     ("text", "#" ++ toString issue.number),
     ("url", issue.html_url)]
    gren.options.template.issue

/-- `templateIssueBody(body, rangeBody)`.  The JS `body` is either an array of
rendered lines or the literal `false` (modelled `none`); `body.length` is
falsy exactly on `false` and on the empty array. -/
def templateIssueBody (body : Option (List String)) (rangeBody : String) : String :=
  (match body with
   | some l =>
     if l.length != 0 then String.intercalate "\n" l
     else if rangeBody != "" then rangeBody else "*No changelog for this release.*"
   | none =>
     if rangeBody != "" then rangeBody else "*No changelog for this release.*") ++ "\n"

/-- `templateGroups`: one string per group, heading rendered through the group
template, followed by the newline-joined issue renderings. -/
def templateGroups (gren : Gren) (groups : List (String × List String)) : List String :=
  groups.map
    (fun group =>
      generate [("heading", group.1)] gren.options.template.group ++ "\n" ++
        String.intercalate "\n" group.2)

/-- Modelled from the spec: `utils.formatDate` lives in `src/utils.js`, not
included under `src/`, and the spec does not constrain the date rendering;
modelled as the decimal timestamp. -/
def formatDate (date : Int) : String :=
  toString date

/-- `templateReleases`: render every release through the release template and
join with the configured separator. -/
def templateReleases (gren : Gren) (releases : List ReleaseRecord) : String :=
  String.intercalate gren.options.template.releaseSeparator
    (releases.map
      (fun release =>
        generate
          [("release", release.name),
           ("date", formatDate release.published_at),
           ("body", release.body)]
          gren.options.template.release))

/-! ## Release synchronizer (`gren.js` lines 56-135, 912-925) -/

/-- The option object handed to `createRelease` / `updateRelease`. -/
structure ReleaseOptions where
  tag_name : String
  name : String
  body : String
  draft : Bool
  prerelease : Bool
  deriving Repr, DecidableEq

/-- A write call against the external release API. -/
inductive ApiCall where
  | createRelease (options : ReleaseOptions)
  | updateRelease (releaseId : Int) (options : ReleaseOptions)
  deriving Repr, DecidableEq

/-- What one `prepareRelease(gren, block)` invocation does: the API calls it
issues and the console warnings it prints. -/
structure PrepareResult where
  calls : List ApiCall
  warnings : List String
  deriving Repr, DecidableEq

/-- JS truthiness of a nullable numeric id (`null` and `0` are falsy). -/
def idTruthy : Option Int → Bool
  | none => false
  | some n => n != 0

/-- The `releaseOptions` object built at the top of `prepareRelease`. -/
def mkReleaseOptions (gren : Gren) (block : Block) : ReleaseOptions :=
  { tag_name := block.release
    name := block.name
    body := block.body
    draft := gren.options.draft
    prerelease := gren.options.prerelease }

/-- `prepareRelease` (lines 115-135): skip with a warning when the block has a
release id and override is off; update through `editRelease` when override is
on; otherwise create through `createRelease`. -/
def prepareRelease (gren : Gren) (block : Block) : PrepareResult :=
  let releaseOptions := mkReleaseOptions gren block
  if idTruthy block.id then
    if !gren.options.override then
      { calls := []
        warnings := ["Skipping " ++ block.release ++ " (use --override to replace it)"] }
    else
      { calls := [ApiCall.updateRelease (block.id.getD 0) releaseOptions], warnings := [] }
  else
    { calls := [ApiCall.createRelease releaseOptions], warnings := [] }

/-- The monad of the release command: a thrown JS value (`Except` layer, the
thrown value being the blocks array thrown at line 919) over a trace of API
calls issued so far (`StateM` layer). -/
abbrev ReleaseM := ExceptT (List Block) (StateM (List ApiCall))

/-- `prepareRelease` lifted into the trace monad: record the calls it makes. -/
def prepareReleaseM (gren : Gren) (block : Block) : ReleaseM Unit :=
  modify (fun calls => calls ++ (prepareRelease gren block).calls)

/-- `GithubReleaseNotes.prototype.release` (lines 912-925), from the point
where the blocks have been built: the callback first executes `throw blocks`;
the per-block `reduce` chain below it is dead code, kept here verbatim. -/
def release (gren : Gren) (blocks : List Block) : ReleaseM Unit := do
  throw blocks
  blocks.foldlM (fun _ block => prepareReleaseM gren block) ()

/-! ## Tag selection (`gren.js` lines 149-168) -/

/-- The body of the `tags.filter` callback in `getSelectedTags`, with the
mutable `selectedTags` array threaded explicitly: `index` tracks the position
in the full tag list, and a successor name is appended to `selectedTags` when
a selected tag is hit while exactly one name is selected. -/
def selectTagsAux (allTags : List Tag) : List Tag → Nat → List String → List Tag
  | [], _, _ => []
  | tag :: rest, index, selectedTags =>
    let isSelectedTag := selectedTags.contains tag.name
    let selectedTags' :=
      if isSelectedTag && selectedTags.length == 1 then
        match allTags[index + 1]? with
        | some next => selectedTags ++ [next.name]
        | none => selectedTags
      else selectedTags
    if isSelectedTag then tag :: selectTagsAux allTags rest (index + 1) selectedTags'
    else selectTagsAux allTags rest (index + 1) selectedTags'

/-- `getSelectedTags(optionTags, tags)`: all tags when `"all"` is requested,
JS `false` (here `none`) when nothing is requested, otherwise the filtered
tags truncated to at most two. -/
def getSelectedTags (optionTags : List String) (tags : List Tag) : Option (List Tag) :=
  if optionTags.contains "all" then some tags
  else if optionTags.length == 0 then none
  else some ((selectTagsAux tags tags 0 optionTags).take 2)

/-! ## Commit-mode body (`gren.js` lines 390-416) -/

/-- Case-insensitive match of one expected ASCII letter. -/
def matchesCI (c lower upper : Char) : Bool :=
  c == lower || c == upper

/-- The JS regex test `/^merge/i` on the character list of a message. -/
def startsWithMergeChars : List Char → Bool
  | c1 :: c2 :: c3 :: c4 :: c5 :: _ =>
    matchesCI c1 'm' 'M' && matchesCI c2 'e' 'E' && matchesCI c3 'r' 'R' &&
      matchesCI c4 'g' 'G' && matchesCI c5 'e' 'E'
  | _ => false

/-- `message.match(/^merge/i)` as a Boolean. -/
def startsWithMergeCI (message : String) : Bool :=
  startsWithMergeChars message.data

/-- The `filterMap` dispatch inside `generateCommitsBody`: `merges` keeps
messages starting with merge, `commits` drops them, `all` keeps everything,
and any other mode falls back to `filterMap.commits`. -/
def commitFilterKeep (gren : Gren) (message : String) : Bool :=
  if gren.options.includeMessages == "merges" then startsWithMergeCI message
  else if gren.options.includeMessages == "commits" then !startsWithMergeCI message
  else if gren.options.includeMessages == "all" then true
  else !startsWithMergeCI message

/-- `generateCommitsBody` (lines 390-416).  The source pushes a `null`
sentinel onto a singleton message list and then takes `slice(0, -1)`, so a
singleton list keeps its one message while longer lists lose their last
element; the sentinel itself never survives the slice. -/
def generateCommitsBody (gren : Gren) (messages : List String) : String :=
  let windowed := if messages.length == 1 then messages else messages.dropLast
  String.intercalate "\n" ((windowed.filter (commitFilterKeep gren)).map (templateCommits gren))

/-! ## Issue pre-filter (`gren.js` lines 503-526) -/

/-- `compareIssueLabels(ignoreLabels, labels)`: true when none of the ignored
labels occurs among the issue labels (a `reduce` with `&&`). -/
def compareIssueLabels (ignoreLabels : List String) (labels : List Label) : Bool :=
  ignoreLabels.foldl
    (fun carry ignoredLabel =>
      carry && !((labels.map (fun label => label.name)).contains ignoredLabel))
    true

/-- `filterIssue` (lines 523-526), with the JS operator precedence kept
exactly: the negated disjunct is
`onlyMilestones || (dataSource === "milestones" && !issue.milestone)`. -/
def filterIssue (gren : Gren) (issue : Issue) : Bool :=
  !issue.pull_request && compareIssueLabels gren.options.ignoreIssuesWith issue.labels &&
    !(gren.options.onlyMilestones ||
      (gren.options.dataSource == "milestones" && issue.milestone.isNone))

/-- Modelled from the spec: the issue pre-filter as spec 4.4 states it -
exclude pull requests, ignored labels, and issues lacking a milestone when the
data source is milestone-based or the onlyMilestones flag is set.  Used only
to contrast with `filterIssue`. -/
def filterIssueSpec (gren : Gren) (issue : Issue) : Bool :=
  !issue.pull_request && compareIssueLabels gren.options.ignoreIssuesWith issue.labels &&
    !((gren.options.onlyMilestones || gren.options.dataSource == "milestones") &&
      issue.milestone.isNone)

/-! ## Grouping (`gren.js` lines 568-639) -/

/-- Structural insertion of one element into a list sorted by `le` (used to
embed the JS comparison sorts; stable, like the engine sorts the source relies
on). -/
def insertSorted {α : Type} (le : α → α → Bool) (a : α) : List α → List α
  | [] => [a]
  | b :: rest => if le a b then a :: b :: rest else b :: insertSorted le a rest

/-- Stable insertion sort by `le`. -/
def insertionSort {α : Type} (le : α → α → Bool) : List α → List α
  | [] => []
  | a :: rest => insertSorted le a (insertionSort le rest)

/-- Code-point lexicographic order on character lists. -/
def lexLeChars : List Char → List Char → Bool
  | [], _ => true
  | _ :: _, [] => false
  | a :: as, b :: bs => if a == b then lexLeChars as bs else decide (a.toNat < b.toNat)

/-- Code-point lexicographic order on strings. -/
def stringLe (a b : String) : Bool :=
  lexLeChars a.data b.data

/-- Modelled from the spec: `utils.sortObject` lives in `src/utils.js`, not
included under `src/`; spec 4.5 orders label-mode sections by key,
lexicographically. -/
def sortObject (groups : List (String × List String)) : List (String × List String) :=
  insertionSort (fun a b => stringLe a.1 b.1) groups

/-- Append `entry` to the group keyed `key`, creating the key at the end on
first insertion (the JS `groups[labelName]` array-as-map). -/
def pushGroup : List (String × List String) → String → String → List (String × List String)
  | [], key, entry => [(key, [entry])]
  | (k, entries) :: rest, key, entry =>
    if k == key then (k, entries ++ [entry]) :: rest
    else (k, entries) :: pushGroup rest key entry

/-- The body of the `issues.forEach` in `groupByLabel`: key the issue by the
name of its first label (after the `noLabel` push); reading
`issue.labels[0].name` on an issue with no labels and no configured `noLabel`
throws a `TypeError`. -/
def groupByLabelStep (gren : Gren) (groups : List (String × List String)) (issue : Issue) :
    Except String (List (String × List String)) :=
  match (effectiveLabels gren issue).head? with
  | none => throw "TypeError: cannot read property name of undefined"
  | some label => pure (pushGroup groups label.name (templateIssue gren issue))

/-- `groupByLabel` (lines 568-586): fold the issues into the `groups`
array-as-map, then render the sorted groups. -/
def groupByLabel (gren : Gren) (issues : List Issue) : Except String (List String) := do
  let groups ← issues.foldlM (groupByLabelStep gren) []
  pure (templateGroups gren (sortObject groups))

/-- `allLabels` (lines 614-616): every label named by any group, in mapping
order. -/
def allLabels (mapping : List (String × List String)) : List String :=
  mapping.foldl (fun carry group => carry ++ group.2) []

/-- The `issue.labels.some(...)` predicate of the mapping branch of `groupBy`
(lines 624-628): a label matches a group when the group names it, or when the
group contains the catch-all token and no group names the label. -/
def matchesGroup (gren : Gren) (mapping : List (String × List String))
    (groupLabels : List String) (issue : Issue) : Bool :=
  (effectiveLabels gren issue).any
    (fun label =>
      groupLabels.contains label.name ||
        (groupLabels.contains "..." && !((allLabels mapping).contains label.name)))

/-- The rendered issues matching one group of the mapping (`groupIssues` in
the source). -/
def groupIssuesOf (gren : Gren) (mapping : List (String × List String))
    (issues : List Issue) (group : String × List String) : List String :=
  (issues.filter (matchesGroup gren mapping group.2)).map (templateIssue gren)

/-- One step of the `reduce` of the mapping branch of `groupBy`: add the group
with its rendered issues when any issue matched, keep the carry unchanged
otherwise. -/
def groupByMappingStep (gren : Gren) (mapping : List (String × List String))
    (issues : List Issue) (carry : List (String × List String))
    (group : String × List String) : List (String × List String) :=
  if (groupIssuesOf gren mapping issues group).length != 0 then
    carry ++ [(group.1, groupIssuesOf gren mapping issues group)]
  else carry

/-- The `reduce` of the mapping branch of `groupBy` (lines 618-636): for each
group in mapping order, the rendered matching issues; groups with no matching
issue are not added. -/
def groupByMapping (gren : Gren) (mapping : List (String × List String))
    (issues : List Issue) : List (String × List String) :=
  mapping.foldl (groupByMappingStep gren mapping issues) []

/-- `groupBy` (lines 599-639): flat rendering, label grouping, a thrown error
on an invalid option, or custom mapping grouping. -/
def groupBy (gren : Gren) (issues : List Issue) : Except String (List String) :=
  match gren.options.groupBy with
  | GroupByOpt.flat => Except.ok (issues.map (templateIssue gren))
  | GroupByOpt.byLabel => groupByLabel gren issues
  | GroupByOpt.invalid _ =>
    Except.error "The option for groupBy is invalid, please check the documentation"
  | GroupByOpt.mapping mapping =>
    Except.ok (templateGroups gren (groupByMapping gren mapping issues))

/-! ## Range classification and issue blocks (`gren.js` lines 654-696) -/

/-- Modelled from the spec: `utils.isInRange` lives in `src/utils.js`, not
included under `src/`; spec 4.4 reads it as inclusive at both bounds. -/
def isInRange (date older newer : Int) : Bool :=
  older ≤ date && date ≤ newer

/-- Whether the first list is a prefix of the second list. -/
def startsWithChars : List Char → List Char → Bool
  | [], _ => true
  | _ :: _, [] => false
  | p :: ps, c :: cs => p == c && startsWithChars ps cs

/-- First-occurrence character-list replacement (the JS
`String.prototype.replace` with a string pattern replaces only the first
occurrence). -/
def replaceFirstChars (pat rep : List Char) : List Char → List Char
  | [] => []
  | c :: rest =>
    if startsWithChars pat (c :: rest) then rep ++ (c :: rest).drop pat.length
    else c :: replaceFirstChars pat rep rest

/-- JS `s.replace(pat, rep)` with a string pattern: first occurrence only. -/
def replaceFirst (s pat rep : String) : String :=
  String.mk (replaceFirstChars pat.data rep.data s.data)

/-- `filterBlockIssue` (lines 654-664): milestone-title match in milestones
mode (reading `.title` of a missing milestone throws), date-range membership
otherwise. -/
def filterBlockIssue (gren : Gren) (range : Range) (issue : Issue) : Except String Bool :=
  if gren.options.dataSource == "milestones" then
    match issue.milestone with
    | none => Except.error "TypeError: cannot read property title of undefined"
    | some milestone =>
      Except.ok
        (replaceFirst gren.options.milestoneMatch "\x7b\x7btag_name\x7d\x7d" range.1.name ==
          milestone.title)
  else
    Except.ok (isInRange issue.closed_at range.2.date range.1.date)

/-- The per-range block construction inside `getIssueBlocks` (lines 682-694):
filter the fetched issues to the range, recompute the body only when the newer
endpoint has no body or override is set (JS `&&` short-circuits, so `groupBy`
is not invoked otherwise), and assemble the block. -/
def issueBlockForRange (gren : Gren) (issues : List Issue) (range : Range) :
    Except String Block := do
  let filteredIssues ← filterM (filterBlockIssue gren range) issues
  let body ←
    if range.1.body == "" || gren.options.override then do
      let rendered ← groupBy gren filteredIssues
      pure (some rendered)
    else pure none
  pure
    { id := range.1.id
      release := range.1.name
      name := gren.options.prefixStr ++ range.1.name
      published_at := range.1.date
      body := templateIssueBody body range.1.body }

/-! ## Date range builder (`gren.js` lines 708-742) -/

/-- `sortReleasesByDate`: JS `sort` with comparator
`new Date(release2.date) - new Date(release1.date)`, i.e. descending by
date. -/
def sortReleasesByDate (releaseDates : List DatedPoint) : List DatedPoint :=
  insertionSort (fun release1 release2 => decide (release2.date ≤ release1.date)) releaseDates

/-- The synthetic point `{id: 0, date: new Date(0)}` pushed when only one
point exists (its `name` is JS `undefined`, its `body` absent). -/
def datePointZero : DatedPoint :=
  { id := some 0, name := "", date := 0, body := "" }

/-- The sliding window `for i in 0 .. len-2: push(slice(i, i+2))` of
`createReleaseRanges`. -/
def adjacentPairs : List DatedPoint → List Range
  | newer :: older :: rest => (newer, older) :: adjacentPairs (older :: rest)
  | _ => []

/-- `createReleaseRanges` (lines 725-742): sort descending, pad a lone point
with the epoch-zero sentinel, emit adjacent pairs.  The `gren` argument is
carried by the source function but never read. -/
def createReleaseRanges (gren : Gren) (releaseDates : List DatedPoint) : List Range :=
  adjacentPairs
    (if (sortReleasesByDate releaseDates).length == 1 then
      sortReleasesByDate releaseDates ++ [datePointZero]
    else sortReleasesByDate releaseDates)

/-! ## Changelog command (`gren.js` lines 789-814, 937-960) -/

/-- The message of the rejection built (and discarded) by
`checkChangelogFile`. -/
def changelogExistsMessage : String :=
  "Looks like there is already a changelog, to override it use --override"

/-- `checkChangelogFile` (lines 789-797).  The source builds
`Promise.reject(...)` when the changelog file exists and override is off but
does not return it, so the rejection is discarded and the function always
resolves; the discarded rejection is kept here as a dead binding. -/
def checkChangelogFile (gren : Gren) (fileExists : Bool) : Except String Unit :=
  if fileExists && !gren.options.override then
    let _discarded : Except String Unit := Except.error changelogExistsMessage
    Except.ok ()
  else
    Except.ok ()

/-- The error thrown by `changelog` when no releases are found. -/
def noReleasesMessage : String :=
  "There are no releases, use --generate to create release notes, or run the release command."

/-- `GithubReleaseNotes.prototype.changelog` (lines 937-960) on its
non-generate path, with the releases fetched by the external `listReleases`
passed as a parameter: check the changelog file, fail when no releases exist,
otherwise produce the content written by `createChangelog` (the changelog
title followed by the templated releases).  A returned `Except.ok content`
means the file is written with `content`. -/
def changelog (gren : Gren) (fileExists : Bool) (fetchedReleases : List ReleaseRecord) :
    Except String String := do
  checkChangelogFile gren fileExists
  if fetchedReleases.length == 0 then
    throw noReleasesMessage
  pure (gren.options.template.changelogTitle ++ templateReleases gren fetchedReleases)

/-! ## Fixtures (concrete option bags used by witnesses and counterexamples) -/

/-- A concrete template set mirroring the default `templates.json` shapes. -/
def baseTemplate : TemplateSet :=
  { commit := "- \x7b\x7bmessage\x7d\x7d"
    label := "[\x7b\x7blabel\x7d\x7d] "
    issue := "- \x7b\x7blabels\x7d\x7d\x7b\x7bname\x7d\x7d"
    group := "#### \x7b\x7bheading\x7d\x7d"
    changelogTitle := "# Changelog\n"
    release := "## \x7b\x7brelease\x7d\x7d\n\x7b\x7bbody\x7d\x7d"
    releaseSeparator := "\n"
    noLabel := "closed" }

/-- A concrete option bag mirroring the `defaults` object of `gren.js`. -/
def baseOptions : Options :=
  { tags := []
    changelogFilename := "CHANGELOG.md"
    dataSource := "issues"
    onlyMilestones := false
    milestoneMatch := "Release \x7b\x7btag_name\x7d\x7d"
    draft := false
    force := false
    prefixStr := ""
    includeMessages := "commits"
    prerelease := false
    generate := false
    override := false
    ignoreLabels := []
    ignoreIssuesWith := []
    template := baseTemplate
    groupBy := GroupByOpt.flat }

/-- Defaults with the override flag off. -/
def grenDefault : Gren := { options := baseOptions }

/-- Defaults with the override flag on. -/
def grenOverride : Gren := { options := { baseOptions with override := true } }

/-! ## C1 -/

/-- A release record used to drive the changelog pipeline in claims about
`checkChangelogFile`. -/
def releaseRecordC1 : ReleaseRecord := { name := "v1", published_at := 100, body := "b" }

/-- C1: the claim says a pre-existing changelog without override aborts the
changelog pipeline with the `ChangelogAlreadyExists` error and writes nothing.
The code violates this: `checkChangelogFile` builds `Promise.reject(...)` but
never returns it, so it resolves for every input, and the pipeline at the
failing input (file exists, override off) runs to completion and writes the
file. -/
theorem claim_C1 :
    (∀ (gren : Gren) (fileExists : Bool), checkChangelogFile gren fileExists = Except.ok ()) ∧
    changelog grenDefault true [releaseRecordC1] =
      Except.ok (baseOptions.template.changelogTitle ++
        templateReleases grenDefault [releaseRecordC1]) := by
  constructor
  · intro gren fileExists
    unfold checkChangelogFile
    split <;> rfl
  · rfl

/-! ## C2 -/

/-- C2: for every input, the release command aborts by throwing the blocks
value before the per-block create/update loop: from any starting trace of API
calls, the run ends in `Except.error blocks` with the trace unchanged, so no
`createRelease` or `updateRelease` call is ever issued. -/
theorem claim_C2 (gren : Gren) (blocks : List Block) (calls : List ApiCall) :
    (release gren blocks).run.run calls = (Except.error blocks, calls) := rfl

/-! ## C3 -/

/-- C3: per block, `prepareRelease` issues exactly one `createRelease` when the
id is null; exactly one `updateRelease` with that id when the id is a nonzero
existing release id and override is set; and no API call plus one skip warning
when the id is a nonzero existing release id and override is not set. -/
theorem claim_C3 (gren : Gren) (block : Block) :
    (block.id = none →
      prepareRelease gren block =
        { calls := [ApiCall.createRelease (mkReleaseOptions gren block)], warnings := [] }) ∧
    (∀ n : Int, block.id = some n → n ≠ 0 → gren.options.override = true →
      prepareRelease gren block =
        { calls := [ApiCall.updateRelease n (mkReleaseOptions gren block)], warnings := [] }) ∧
    (∀ n : Int, block.id = some n → n ≠ 0 → gren.options.override = false →
      prepareRelease gren block =
        { calls := []
          warnings := ["Skipping " ++ block.release ++ " (use --override to replace it)"] }) := by
  refine ⟨fun h => ?_, fun n h hn hov => ?_, fun n h hn hov => ?_⟩
  · simp [prepareRelease, h, idTruthy]
  · simp [prepareRelease, h, idTruthy, hov, bne_iff_ne, hn]
  · simp [prepareRelease, h, idTruthy, hov, bne_iff_ne, hn]

/-- A block with no associated release. -/
def blockNew : Block := { id := none, release := "v1", name := "v1", published_at := 0, body := "b" }

/-- A block carrying the existing release id 5. -/
def blockExisting : Block :=
  { id := some 5, release := "v1", name := "v1", published_at := 0, body := "b" }

theorem claim_C3_witness :
    prepareRelease grenDefault blockNew =
      { calls := [ApiCall.createRelease (mkReleaseOptions grenDefault blockNew)], warnings := [] } ∧
    prepareRelease grenOverride blockExisting =
      { calls := [ApiCall.updateRelease 5 (mkReleaseOptions grenOverride blockExisting)],
        warnings := [] } ∧
    prepareRelease grenDefault blockExisting =
      { calls := [], warnings := ["Skipping v1 (use --override to replace it)"] } :=
  ⟨(claim_C3 grenDefault blockNew).1 rfl,
   (claim_C3 grenOverride blockExisting).2.1 5 rfl (by decide) rfl,
   (claim_C3 grenDefault blockExisting).2.2 5 rfl (by decide) rfl⟩

/-! ## C4 -/

/-- An issue that has a milestone, is not a pull request and carries no
ignored label. -/
def issueWithMilestone : Issue :=
  { pull_request := false, title := "t", number := 1, html_url := "u", labels := []
    milestone := some { title := "m" }, closed_at := 0 }

/-- Defaults with `onlyMilestones` set (data source left at `issues`). -/
def grenOnlyMilestones : Gren := { options := { baseOptions with onlyMilestones := true } }

/-- C4: the claim says an issue that has a milestone is never excluded on
milestone grounds, even with `onlyMilestones` set.  The code violates this:
the missing parentheses in `filterIssue` make `onlyMilestones` exclude every
issue, milestone or not, while the pre-filter as the spec states it
(`filterIssueSpec`) keeps this one. -/
theorem claim_C4 :
    filterIssue grenOnlyMilestones issueWithMilestone = false ∧
    filterIssueSpec grenOnlyMilestones issueWithMilestone = true := by decide

/-! ## C6 -/

/-- C6 counterexample: the claim says a singleton message list yields an empty
body; with the defaults (include mode `commits`) and commit template
`- \x7b\x7bmessage\x7d\x7d`, the singleton `["fix: a"]` yields the rendered
message, not the empty string, because the pushed null sentinel (not the
message) is what `slice(0, -1)` removes. -/
theorem claim_C6_counterexample :
    generateCommitsBody grenDefault ["fix: a"] = "- fix: a" ∧
    generateCommitsBody grenDefault ["fix: a"] ≠ "" := by decide

/-- C6 amended: the commit-mode body is the newline-join of the per-commit
rendered templates of the first N-1 messages filtered by the include mode
(`merges` keeps messages beginning with merge case-insensitively, `all` keeps
everything, `commits` and every unrecognized mode drop messages beginning with
merge); a list of exactly one message is paired with a null sentinel that is
itself dropped, so the single message is retained and filtered like any
other. -/
theorem claim_C6 (gren : Gren) (messages : List String) :
    (messages.length ≠ 1 →
      generateCommitsBody gren messages =
        String.intercalate "\n"
          (((messages.take (messages.length - 1)).filter (commitFilterKeep gren)).map
            (templateCommits gren))) ∧
    (messages.length = 1 →
      generateCommitsBody gren messages =
        String.intercalate "\n"
          ((messages.filter (commitFilterKeep gren)).map (templateCommits gren))) ∧
    ((gren.options.includeMessages ≠ "merges" ∧ gren.options.includeMessages ≠ "all") →
      ∀ message, commitFilterKeep gren message = !startsWithMergeCI message) ∧
    (gren.options.includeMessages = "merges" →
      ∀ message, commitFilterKeep gren message = startsWithMergeCI message) ∧
    (gren.options.includeMessages = "all" →
      ∀ message, commitFilterKeep gren message = true) := by
  refine ⟨fun h => ?_, fun h => ?_, fun h message => ?_, fun h message => ?_, fun h message => ?_⟩
  · simp [generateCommitsBody, h, List.dropLast_eq_take]
  · simp [generateCommitsBody, h]
  · simp [commitFilterKeep, h.1, h.2]
  · simp [commitFilterKeep, h]
  · simp [commitFilterKeep, h]

theorem claim_C6_witness :
    generateCommitsBody grenDefault ["fix: a", "Merge b", "feat: c"] =
      String.intercalate "\n"
        (((["fix: a", "Merge b", "feat: c"].take
            (["fix: a", "Merge b", "feat: c"].length - 1)).filter
              (commitFilterKeep grenDefault)).map (templateCommits grenDefault)) ∧
    generateCommitsBody grenDefault ["fix: a"] =
      String.intercalate "\n"
        ((["fix: a"].filter (commitFilterKeep grenDefault)).map (templateCommits grenDefault)) ∧
    commitFilterKeep grenDefault "Merge b" = !startsWithMergeCI "Merge b" :=
  ⟨(claim_C6 grenDefault ["fix: a", "Merge b", "feat: c"]).1 (by decide),
   (claim_C6 grenDefault ["fix: a"]).2.1 rfl,
   (claim_C6 grenDefault ["Merge b"]).2.2.1 (by decide) "Merge b"⟩

/-! ## C8 -/

theorem length_insertSorted {α : Type} (le : α → α → Bool) (a : α) (l : List α) :
    (insertSorted le a l).length = l.length + 1 := by
  induction l with
  | nil => rfl
  | cons b rest ih =>
    unfold insertSorted
    split
    · simp
    · simpa using ih

theorem length_insertionSort {α : Type} (le : α → α → Bool) (l : List α) :
    (insertionSort le l).length = l.length := by
  induction l with
  | nil => rfl
  | cons a rest ih =>
    unfold insertionSort
    rw [length_insertSorted, ih, List.length_cons]

theorem mem_insertSorted {α : Type} (le : α → α → Bool) (a x : α) (l : List α) :
    x ∈ insertSorted le a l ↔ x = a ∨ x ∈ l := by
  induction l with
  | nil => simp [insertSorted]
  | cons b rest ih =>
    unfold insertSorted
    split
    · simp
    · simp only [List.mem_cons, ih]
      tauto

theorem pairwise_insertSorted {α : Type} (le : α → α → Bool)
    (total : ∀ a b, le a b = true ∨ le b a = true)
    (trans : ∀ a b c, le a b = true → le b c = true → le a c = true)
    (a : α) (l : List α) (h : l.Pairwise (fun x y => le x y = true)) :
    (insertSorted le a l).Pairwise (fun x y => le x y = true) := by
  induction l with
  | nil => simp [insertSorted]
  | cons b rest ih =>
    unfold insertSorted
    rcases List.pairwise_cons.1 h with ⟨hb, hrest⟩
    split
    · rename_i hab
      refine List.pairwise_cons.2 ⟨?_, h⟩
      intro x hx
      rcases List.mem_cons.1 hx with rfl | hx
      · exact hab
      · exact trans a b x hab (hb x hx)
    · rename_i hab
      refine List.pairwise_cons.2 ⟨?_, ih hrest⟩
      intro x hx
      rcases (mem_insertSorted le a x rest).1 hx with rfl | hx
      · rcases total x b with hxb | hbx
        · exact absurd hxb hab
        · exact hbx
      · exact hb x hx

theorem pairwise_insertionSort {α : Type} (le : α → α → Bool)
    (total : ∀ a b, le a b = true ∨ le b a = true)
    (trans : ∀ a b c, le a b = true → le b c = true → le a c = true)
    (l : List α) : (insertionSort le l).Pairwise (fun x y => le x y = true) := by
  induction l with
  | nil => simp [insertionSort]
  | cons a rest ih => exact pairwise_insertSorted le total trans a (insertionSort le rest) ih

theorem sorted_sortReleasesByDate (l : List DatedPoint) :
    (sortReleasesByDate l).Pairwise (fun a b => b.date ≤ a.date) := by
  have h := pairwise_insertionSort
    (fun release1 release2 : DatedPoint => decide (release2.date ≤ release1.date))
    (fun a b => by
      rcases Int.le_total b.date a.date with h | h
      · exact Or.inl (decide_eq_true h)
      · exact Or.inr (decide_eq_true h))
    (fun a b c hab hbc =>
      decide_eq_true (Int.le_trans (of_decide_eq_true hbc) (of_decide_eq_true hab)))
    l
  exact h.imp (fun hx => of_decide_eq_true hx)

theorem length_sortReleasesByDate (l : List DatedPoint) :
    (sortReleasesByDate l).length = l.length :=
  length_insertionSort _ l

theorem length_adjacentPairs (l : List DatedPoint) :
    (adjacentPairs l).length = l.length - 1 := by
  induction l with
  | nil => rfl
  | cons a rest ih =>
    cases rest with
    | nil => rfl
    | cons b rest' =>
      show ((a, b) :: adjacentPairs (b :: rest')).length = _
      simp only [List.length_cons] at ih ⊢
      omega

theorem adjacentPairs_rel (l : List DatedPoint) {R : DatedPoint → DatedPoint → Prop}
    (h : l.Pairwise R) : ∀ p ∈ adjacentPairs l, R p.1 p.2 := by
  induction l with
  | nil => intro p hp; cases hp
  | cons a rest ih =>
    cases rest with
    | nil => intro p hp; cases hp
    | cons b rest' =>
      intro p hp
      rcases List.pairwise_cons.1 h with ⟨ha, hrest⟩
      rcases List.mem_cons.1 hp with rfl | hp
      · exact ha b (List.mem_cons_self b rest')
      · exact ih hrest p hp

theorem adjacentPairs_chain (l : List DatedPoint) :
    List.Chain' (fun r s : Range => r.2 = s.1) (adjacentPairs l) := by
  induction l with
  | nil => exact List.chain'_nil
  | cons a rest ih =>
    cases rest with
    | nil => simp [adjacentPairs]
    | cons b rest' =>
      show List.Chain' _ ((a, b) :: adjacentPairs (b :: rest'))
      refine List.chain'_cons'.2 ⟨?_, ih⟩
      intro y hy
      cases rest' with
      | nil => simp [adjacentPairs] at hy
      | cons c rest'' =>
        simp only [adjacentPairs, List.head?_cons, Option.mem_def, Option.some.injEq] at hy
        subst hy
        rfl

/-- C8: the range builder on zero points returns no ranges; on one point it
returns the single range from that point down to the epoch-zero sentinel with
id 0; on two or more points it returns the `n-1` adjacent pairs of the points
sorted descending by date, so every range has `newer.date >= older.date` and
consecutive ranges share an endpoint. -/
theorem claim_C8 (gren : Gren) (points : List DatedPoint) :
    (points = [] → createReleaseRanges gren points = []) ∧
    (∀ p, points = [p] →
      createReleaseRanges gren points = [(p, datePointZero)] ∧
      datePointZero.date = 0 ∧ datePointZero.id = some 0) ∧
    (2 ≤ points.length →
      (createReleaseRanges gren points).length = points.length - 1 ∧
      createReleaseRanges gren points = adjacentPairs (sortReleasesByDate points) ∧
      (∀ r ∈ createReleaseRanges gren points, r.2.date ≤ r.1.date) ∧
      List.Chain' (fun r s : Range => r.2 = s.1) (createReleaseRanges gren points)) := by
  refine ⟨fun h => ?_, fun p h => ?_, fun h => ?_⟩
  · subst h; rfl
  · subst h; exact ⟨rfl, rfl, rfl⟩
  · have hlen : (sortReleasesByDate points).length = points.length :=
      length_sortReleasesByDate points
    have hne : ((sortReleasesByDate points).length == 1) = false := by
      rw [hlen]
      exact beq_eq_false_iff_ne.2 (by omega)
    have heq : createReleaseRanges gren points = adjacentPairs (sortReleasesByDate points) := by
      unfold createReleaseRanges
      rw [hne]
      simp
    refine ⟨?_, heq, ?_, ?_⟩
    · rw [heq, length_adjacentPairs, hlen]
    · rw [heq]
      exact adjacentPairs_rel _ (sorted_sortReleasesByDate points)
    · rw [heq]
      exact adjacentPairs_chain _

/-- A newer concrete dated point. -/
def pointNewer : DatedPoint := { id := some 1, name := "v2", date := 200, body := "" }

/-- An older concrete dated point. -/
def pointOlder : DatedPoint := { id := none, name := "v1", date := 100, body := "" }

theorem claim_C8_witness :
    createReleaseRanges grenDefault [] = [] ∧
    createReleaseRanges grenDefault [pointOlder] = [(pointOlder, datePointZero)] ∧
    (createReleaseRanges grenDefault [pointOlder, pointNewer]).length =
      [pointOlder, pointNewer].length - 1 :=
  ⟨(claim_C8 grenDefault []).1 rfl,
   ((claim_C8 grenDefault [pointOlder]).2.1 pointOlder rfl).1,
   ((claim_C8 grenDefault [pointOlder, pointNewer]).2.2 (by decide)).1⟩

/-! ## C9 -/

/-- Walking `selectTagsAux` over a prefix of tags none of which carries the
single requested name leaves the selection state unchanged and only advances
the index. -/
theorem selectTagsAux_skip (allTags : List Tag) (t : String) :
    ∀ (pre rest : List Tag) (i : Nat), (∀ x ∈ pre, x.name ≠ t) →
      selectTagsAux allTags (pre ++ rest) i [t] =
        selectTagsAux allTags rest (i + pre.length) [t] := by
  intro pre
  induction pre with
  | nil => intro rest i _; simp
  | cons x pre' ih =>
    intro rest i h
    have hx : x.name ≠ t := h x (List.mem_cons_self x pre')
    have hcont : (([t] : List String).contains x.name) = false := by simp [hx]
    show selectTagsAux allTags (x :: (pre' ++ rest)) i [t] = _
    rw [selectTagsAux, hcont]
    simp only [Bool.false_and, if_false, Bool.false_eq_true]
    rw [ih rest (i + 1) (fun y hy => h y (List.mem_cons_of_mem x hy))]
    congr 1
    simp [List.length_cons]
    omega

/-- C9: a non-`all`, non-empty tag request yields at most two tags; and a
single requested tag that occurs in the full tag list (first at some position)
and has a successor there yields a selection containing both the requested tag
and its successor. -/
theorem claim_C9 :
    (∀ (optionTags : List String) (tags : List Tag),
      optionTags.contains "all" = false → optionTags ≠ [] →
      ∃ l, getSelectedTags optionTags tags = some l ∧ l.length ≤ 2) ∧
    (∀ (t : String) (pre post : List Tag) (a b : Tag),
      t ≠ "all" → (∀ x ∈ pre, x.name ≠ t) → a.name = t →
      ∃ l, getSelectedTags [t] (pre ++ a :: b :: post) = some l ∧ a ∈ l ∧ b ∈ l) := by
  constructor
  · intro optionTags tags hall hne
    have h0 : (optionTags.length == 0) = false :=
      beq_eq_false_iff_ne.2 (fun hh => hne (List.length_eq_zero.1 hh))
    refine ⟨(selectTagsAux tags tags 0 optionTags).take 2, ?_, ?_⟩
    · unfold getSelectedTags
      rw [hall, h0]
      simp
    · rw [List.length_take]
      exact min_le_left _ _
  · intro t pre post a b hall hpre ha
    have hcall : (([t] : List String).contains "all") = false := by simp [Ne.symm hall]
    have hsel_a : (([t] : List String).contains a.name) = true := by simp [ha]
    have hnext : (pre ++ a :: b :: post)[pre.length + 1]? = some b := by
      rw [List.getElem?_append_right (by omega)]
      simp
    have hsel_b : (([t, b.name] : List String).contains b.name) = true := by simp
    refine ⟨[a, b], ?_, by simp, by simp⟩
    unfold getSelectedTags
    rw [hcall]
    simp only [Bool.false_eq_true, if_false, List.length_cons, List.length_nil]
    have hskip :
        selectTagsAux (pre ++ a :: b :: post) (pre ++ a :: b :: post) 0 [t] =
          selectTagsAux (pre ++ a :: b :: post) (a :: b :: post) pre.length [t] := by
      rw [selectTagsAux_skip (pre ++ a :: b :: post) t pre (a :: b :: post) 0 hpre]
      rw [Nat.zero_add]
    have hstep_a :
        selectTagsAux (pre ++ a :: b :: post) (a :: b :: post) pre.length [t] =
          a :: selectTagsAux (pre ++ a :: b :: post) (b :: post) (pre.length + 1)
            [t, b.name] := by
      rw [selectTagsAux, hsel_a, hnext]
      simp
    have hstep_b :
        selectTagsAux (pre ++ a :: b :: post) (b :: post) (pre.length + 1) [t, b.name] =
          b :: selectTagsAux (pre ++ a :: b :: post) post (pre.length + 1 + 1)
            [t, b.name] := by
      rw [selectTagsAux, hsel_b]
      simp
    rw [hskip, hstep_a, hstep_b]
    simp

/-- Three concrete tags, newest first. -/
def tagsNewestFirst : List Tag := [{ name := "v2" }, { name := "v1" }, { name := "v0" }]

theorem claim_C9_witness :
    (∃ l, getSelectedTags ["v1"] tagsNewestFirst = some l ∧ l.length ≤ 2) ∧
    (∃ l, getSelectedTags ["v1"] ([{ name := "v2" }] ++ { name := "v1" } :: { name := "v0" } :: []) =
      some l ∧ ({ name := "v1" } : Tag) ∈ l ∧ ({ name := "v0" } : Tag) ∈ l) :=
  ⟨claim_C9.1 ["v1"] tagsNewestFirst (by decide) (by decide),
   claim_C9.2 "v1" [{ name := "v2" }] [] { name := "v1" } { name := "v0" }
     (by decide) (by decide) rfl⟩

/-! ## C10 -/

theorem effectiveLabels_ne_nil (gren : Gren) (issue : Issue)
    (h : issue.labels ≠ [] ∨ gren.options.template.noLabel ≠ "") :
    effectiveLabels gren issue ≠ [] := by
  unfold effectiveLabels
  split
  · simp
  · rename_i hcond
    rcases h with h | h
    · exact h
    · intro hnil
      exact hcond (by simp [hnil, h])

theorem effectiveLabels_eq_nil (gren : Gren) (issue : Issue)
    (h1 : issue.labels = []) (h2 : gren.options.template.noLabel = "") :
    effectiveLabels gren issue = [] := by
  simp [effectiveLabels, h1, h2]

theorem isOk_bind_pure {ε α β : Type} (x : Except ε α) (f : α → β) :
    (x >>= fun a => pure (f a) : Except ε β).isOk = x.isOk := by
  cases x <;> rfl

/-- The fold of `groupByLabel` succeeds exactly when every issue still has a
first label after the `noLabel` push. -/
theorem groupByLabel_fold_isOk (gren : Gren) :
    ∀ (issues : List Issue) (acc : List (String × List String)),
      (List.foldlM (groupByLabelStep gren) acc issues).isOk =
        issues.all (fun issue => !(effectiveLabels gren issue).isEmpty) := by
  intro issues
  induction issues with
  | nil => intro acc; rfl
  | cons issue rest ih =>
    intro acc
    rw [List.foldlM_cons, List.all_cons]
    cases hL : effectiveLabels gren issue with
    | nil =>
      have hstep : groupByLabelStep gren acc issue =
          throw "TypeError: cannot read property name of undefined" := by
        simp [groupByLabelStep, hL]
      rw [hstep]
      rfl
    | cons label labs =>
      have hstep : groupByLabelStep gren acc issue =
          pure (pushGroup acc label.name (templateIssue gren issue)) := by
        simp [groupByLabelStep, hL]
      rw [hstep]
      simpa using ih (pushGroup acc label.name (templateIssue gren issue))

/-- C10: label grouping is total exactly under the precondition that every
issue has a label or the `noLabel` placeholder is configured; an issue with no
labels and no configured `noLabel` makes `groupByLabel` fail (the
`issue.labels[0].name` dereference), and under the precondition that failure
branch is unreachable so every issue receives a group key. -/
theorem claim_C10 (gren : Gren) (issues : List Issue) :
    ((∀ issue ∈ issues, issue.labels ≠ [] ∨ gren.options.template.noLabel ≠ "") →
      (groupByLabel gren issues).isOk = true) ∧
    ((∃ issue ∈ issues, issue.labels = [] ∧ gren.options.template.noLabel = "") →
      (groupByLabel gren issues).isOk = false) := by
  have hmain : (groupByLabel gren issues).isOk =
      issues.all (fun issue => !(effectiveLabels gren issue).isEmpty) := by
    unfold groupByLabel
    rw [isOk_bind_pure]
    exact groupByLabel_fold_isOk gren issues []
  constructor
  · intro h
    rw [hmain, List.all_eq_true]
    intro issue hm
    simpa [List.isEmpty_iff] using effectiveLabels_ne_nil gren issue (h issue hm)
  · rintro ⟨issue, hm, h1, h2⟩
    rw [hmain]
    apply List.all_eq_false.2
    refine ⟨issue, hm, ?_⟩
    simp [List.isEmpty_iff, effectiveLabels_eq_nil gren issue h1 h2]

/-- An issue carrying one label. -/
def issueLabeled : Issue :=
  { pull_request := false, title := "t", number := 2, html_url := "u"
    labels := [{ name := "bug" }], milestone := none, closed_at := 0 }

/-- An issue with no labels at all. -/
def issueUnlabeled : Issue :=
  { pull_request := false, title := "t", number := 3, html_url := "u"
    labels := [], milestone := none, closed_at := 0 }

/-- Defaults with no `noLabel` placeholder configured. -/
def grenNoPlaceholder : Gren :=
  { options := { baseOptions with template := { baseTemplate with noLabel := "" } } }

theorem claim_C10_witness :
    (groupByLabel grenNoPlaceholder [issueLabeled]).isOk = true ∧
    (groupByLabel grenNoPlaceholder [issueUnlabeled]).isOk = false :=
  ⟨(claim_C10 grenNoPlaceholder [issueLabeled]).1 (by decide),
   (claim_C10 grenNoPlaceholder [issueUnlabeled]).2 (by decide)⟩

/-! ## C5 -/

theorem okBind {ε α β : Type} (a : α) (f : α → Except ε β) :
    (Except.ok a : Except ε α) >>= f = f a := rfl

/-- A range whose newer endpoint carries an existing non-empty release
body. -/
def rangeWithBody : Range :=
  ({ id := some 5, name := "v1", date := 100, body := "abc" },
   { id := none, name := "v0", date := 0, body := "" })

/-- A range whose newer endpoint has no release body. -/
def rangeNoBody : Range :=
  ({ id := some 5, name := "v1", date := 100, body := "" },
   { id := none, name := "v0", date := 0, body := "" })

/-- C5 counterexample: the claim says the synthesized body equals the existing
body unchanged; at an existing body `"abc"` with override off the block body
is `"abc\n"` (the uniform trailing newline of `templateIssueBody`), which
differs from `"abc"`. -/
theorem claim_C5_counterexample :
    issueBlockForRange grenDefault [] rangeWithBody =
      Except.ok
        { id := some 5, release := "v1", name := "v1", published_at := 100, body := "abc\n" } ∧
    "abc\n" ≠ "abc" := by decide

/-- C5 amended: when the newer endpoint carries a non-empty body and override
is off, the block body is the existing body with the uniform trailing newline
appended, independent of the issues on offer (the grouping recomputation is
skipped); the body is recomputed through `groupBy` from the issues that
qualify for the range exactly when the existing body is empty or override is
set. -/
theorem claim_C5 (gren : Gren) (issues : List Issue) (range : Range) (filtered : List Issue)
    (hfilter : filterM (filterBlockIssue gren range) issues = Except.ok filtered) :
    (range.1.body ≠ "" → gren.options.override = false →
      issueBlockForRange gren issues range =
        Except.ok
          { id := range.1.id, release := range.1.name
            name := gren.options.prefixStr ++ range.1.name
            published_at := range.1.date, body := range.1.body ++ "\n" }) ∧
    ((range.1.body = "" ∨ gren.options.override = true) →
      issueBlockForRange gren issues range =
        (groupBy gren filtered).map
          (fun rendered =>
            { id := range.1.id, release := range.1.name
              name := gren.options.prefixStr ++ range.1.name
              published_at := range.1.date
              body := templateIssueBody (some rendered) range.1.body })) := by
  constructor
  · intro hbody hov
    have hb : (range.1.body == "") = false := beq_eq_false_iff_ne.2 hbody
    have hbody' : templateIssueBody none range.1.body = range.1.body ++ "\n" := by
      unfold templateIssueBody
      simp [bne, hb]
    unfold issueBlockForRange
    rw [hfilter, okBind, hb, hov]
    simp only [Bool.or_self, Bool.false_eq_true, if_false]
    rw [← hbody']
    rfl
  · intro hcond
    have hc : (range.1.body == "" || gren.options.override) = true := by
      rcases hcond with h | h <;> simp [h]
    unfold issueBlockForRange
    rw [hfilter, okBind, hc]
    simp only [if_true]
    cases hg : groupBy gren filtered with
    | error e => rfl
    | ok rendered => rfl

theorem claim_C5_witness :
    issueBlockForRange grenDefault [] rangeWithBody =
      Except.ok
        { id := some 5, release := "v1", name := "v1", published_at := 100, body := "abc\n" } ∧
    issueBlockForRange grenDefault [] rangeNoBody =
      (groupBy grenDefault []).map
        (fun rendered =>
          { id := some 5, release := "v1", name := "v1", published_at := 100
            body := templateIssueBody (some rendered) "" }) :=
  ⟨by
    have h := (claim_C5 grenDefault [] rangeWithBody [] rfl).1 (by decide) rfl
    simpa using h,
   by
    have h := (claim_C5 grenDefault [] rangeNoBody [] rfl).2 (Or.inl rfl)
    simpa using h⟩

/-! ## C7 -/

/-- The claim-side description of one output entry of the mapping grouper: the
group with its rendered matching issues, or nothing when no issue matched. -/
def mappingGroupEntry (gren : Gren) (mapping : List (String × List String))
    (issues : List Issue) (group : String × List String) :
    Option (String × List String) :=
  if (groupIssuesOf gren mapping issues group).length != 0 then
    some (group.1, groupIssuesOf gren mapping issues group)
  else none

theorem groupByMapping_foldl_aux (gren : Gren) (mapping : List (String × List String))
    (issues : List Issue) :
    ∀ (ms carry : List (String × List String)),
      ms.foldl (groupByMappingStep gren mapping issues) carry =
        carry ++ ms.filterMap (mappingGroupEntry gren mapping issues) := by
  intro ms
  induction ms with
  | nil => intro carry; simp
  | cons g ms' ih =>
    intro carry
    rw [List.foldl_cons, List.filterMap_cons]
    cases h : ((groupIssuesOf gren mapping issues g).length != 0) with
    | true =>
      simp only [groupByMappingStep, mappingGroupEntry, h, if_true]
      rw [ih]
      simp
    | false =>
      simp only [groupByMappingStep, mappingGroupEntry, h, Bool.false_eq_true, if_false]
      rw [ih]

/-- An issue carrying the label `feature`, named by no group of
`customMapping`. -/
def issueFeature : Issue :=
  { pull_request := false, title := "f", number := 4, html_url := "u"
    labels := [{ name := "feature" }], milestone := none, closed_at := 0 }

/-- A two-group mapping: a named group and a catch-all group. -/
def customMapping : List (String × List String) := [("bugs", ["bug"]), ("misc", ["..."])]

/-- A one-group mapping holding only the catch-all token. -/
def catchAllMapping : List (String × List String) := [("g", ["..."])]

/-- C7 counterexample: the claim places every issue whose labels intersect no
group into each catch-all group; an issue with no labels at all (and no
`noLabel` placeholder configured) vacuously intersects no group, yet it
matches no group - `.some` over its empty label list is false - so the
catch-all group stays empty and is omitted: the output is empty. -/
theorem claim_C7_counterexample :
    (∀ label ∈ issueUnlabeled.labels, (allLabels catchAllMapping).contains label.name = false) ∧
    ("g", ["..."]) ∈ catchAllMapping ∧
    (["..."] : List String).contains "..." = true ∧
    [issueUnlabeled].filter (matchesGroup grenNoPlaceholder catchAllMapping ["..."]) = [] ∧
    groupByMapping grenNoPlaceholder catchAllMapping [issueUnlabeled] = [] := by decide

/-- C7 amended: an issue whose effective label list (its labels, or the
configured `noLabel` placeholder when it has none) is non-empty and intersects
the labels named in no group is placed in each group whose label list contains
the catch-all token; an issue whose labels intersect the label list of a
group is placed in that group (possibly in several, no deduplication); and
the output is exactly the mapping in declaration order with the rendered
matching issues of each group, every zero-match group omitted. -/
theorem claim_C7 (gren : Gren) (mapping : List (String × List String)) (issues : List Issue) :
    (∀ group ∈ mapping, ∀ issue ∈ issues,
      group.2.contains "..." = true →
      effectiveLabels gren issue ≠ [] →
      (∀ label ∈ effectiveLabels gren issue, (allLabels mapping).contains label.name = false) →
      issue ∈ issues.filter (matchesGroup gren mapping group.2)) ∧
    (∀ group ∈ mapping, ∀ issue ∈ issues,
      (∃ label ∈ issue.labels, group.2.contains label.name = true) →
      issue ∈ issues.filter (matchesGroup gren mapping group.2)) ∧
    groupByMapping gren mapping issues =
      mapping.filterMap (mappingGroupEntry gren mapping issues) := by
  refine ⟨?_, ?_, groupByMapping_foldl_aux gren mapping issues mapping []⟩
  · intro group _ issue hi hdots hne hdisj
    refine List.mem_filter.2 ⟨hi, ?_⟩
    obtain ⟨label, hlabel⟩ := List.exists_mem_of_ne_nil _ hne
    unfold matchesGroup
    refine List.any_eq_true.2 ⟨label, hlabel, ?_⟩
    rw [hdots, hdisj label hlabel]
    simp
  · intro group _ issue hi hx
    obtain ⟨label, hl, hname⟩ := hx
    refine List.mem_filter.2 ⟨hi, ?_⟩
    have hle : label ∈ effectiveLabels gren issue := by
      unfold effectiveLabels
      split
      · rename_i hcond
        exfalso
        rw [Bool.and_eq_true] at hcond
        rw [List.isEmpty_iff.1 hcond.1] at hl
        cases hl
      · exact hl
    unfold matchesGroup
    refine List.any_eq_true.2 ⟨label, hle, ?_⟩
    rw [hname]
    simp

theorem claim_C7_witness :
    issueFeature ∈ [issueLabeled, issueFeature].filter
      (matchesGroup grenDefault customMapping ["..."]) ∧
    issueLabeled ∈ [issueLabeled, issueFeature].filter
      (matchesGroup grenDefault customMapping ["bug"]) ∧
    groupByMapping grenDefault customMapping [issueLabeled, issueFeature] =
      customMapping.filterMap
        (mappingGroupEntry grenDefault customMapping [issueLabeled, issueFeature]) :=
  ⟨(claim_C7 grenDefault customMapping [issueLabeled, issueFeature]).1
      ("misc", ["..."]) (by decide) issueFeature (by decide) (by decide) (by decide) (by decide),
   (claim_C7 grenDefault customMapping [issueLabeled, issueFeature]).2.1
      ("bugs", ["bug"]) (by decide) issueLabeled (by decide)
      ⟨{ name := "bug" }, by decide, by decide⟩,
   (claim_C7 grenDefault customMapping [issueLabeled, issueFeature]).2.2⟩
